import Mathlib

/-!
# Datatops storage backends: a shallow embedding

This file embeds the storage-backend core of the `datatops` package:

* `src/datatops/server/backend/backend.py` — key generators;
* `src/datatops/server/backend/jsonfilebackend.py` — `JSONFileBackend`;
* `src/datatops/server/backend/dynamodbbackend.py` — `DynamoDBBackend`;
* `src/datatops/server/__init__.py` — `DatatopsServer.store` (timestamp injection).

JSON documents are modelled by the inductive `Json`; a Python `dict` is an
insertion-ordered association list (`Dict`), matching CPython semantics where
assigning to an existing key keeps its position and a new key is appended.
The file backend's directory is a map from file name to parsed JSON document
(`FS`).  Python exceptions (`KeyError`, `FileNotFoundError`, `TypeError`,
`NotImplementedError`) are modelled with explicit error constructors or
`Option`.  The DynamoDB substrate is modelled as tables of items sorted by
(partition key, sort key); `put_item` inserts in key order and replaces an
item bearing the same full key, and `query` on a partition returns its items
in sort-key order with an optional count cap, which is how the substrate
documents itself and how the spec (§4.4) describes the backend's use of it.
-/

namespace Datatops

/-- JSON-compatible Python values as produced by `json.load`: `None`, `bool`,
`int`, `str`, lists and (insertion-ordered) dicts.  Floats do not occur in any
value this development manipulates. -/
inductive Json where
  | null : Json
  | bool : Bool → Json
  | num : Int → Json
  | str : String → Json
  | arr : List Json → Json
  | obj : List (String × Json) → Json

/-- A Python dict with string keys, as an insertion-ordered association list. -/
abbrev Dict := List (String × Json)

/-- The file backend's directory: file name ↦ parsed JSON document. -/
abbrev FS := List (String × Json)

/-- First-match association-list lookup (`m[k]` / `m.get(k)`). -/
def alookup {κ α : Type} [DecidableEq κ] : List (κ × α) → κ → Option α
  | [], _ => none
  | (k', v) :: rest, k => if k' = k then some v else alookup rest k

/-- Association-list update (`m[k] = v`): replace the first binding of `k`
in place, or append a fresh binding — CPython dict-assignment order. -/
def aset {κ α : Type} [DecidableEq κ] : List (κ × α) → κ → α → List (κ × α)
  | [], k, v => [(k, v)]
  | (k', v') :: rest, k, v =>
    if k' = k then (k, v) :: rest else (k', v') :: aset rest k v

/-- Python `d[k]` on a JSON value: field lookup on a dict; anything else
(`KeyError` on a missing key, `TypeError` on a non-dict) is `none`. -/
def Json.index : Json → String → Option Json
  | .obj fields, k => alookup fields k
  | _, _ => none

/-- Python `d[k] = v` on a JSON object; on a non-object the value is
returned unchanged (the call sites never reach that case). -/
def Json.setField : Json → String → Json → Json
  | .obj fields, k, v => .obj (aset fields k v)
  | j, _, _ => j

/-- Python `j == s` where `s : str`: true exactly on the equal JSON string. -/
def jsonEqStr (j : Json) (s : String) : Bool :=
  match j with
  | .str t => t = s
  | _ => false

/-- Python `j == s` where `s : Optional[str]`: JSON `null` equals `None`,
a JSON string equals the equal `str`, and nothing else matches. -/
def jsonEqPy (j : Json) (s : Option String) : Bool :=
  match j, s with
  | .str t, some u => t = u
  | .null, none => true
  | _, _ => false

end Datatops

namespace Datatops

/-! ## `JSONFileBackend` (src/datatops/server/backend/jsonfilebackend.py) -/

/-- `self.path / (project + ".json")`. -/
def projectFile (project : String) : String := project ++ ".json"

/-- `self.path / "projects.json"`, the registry document. -/
def projectsFile : String := "projects.json"

/-- `JSONFileBackend._project_exists`: a file-existence probe. -/
def fileProjectExists (fs : FS) (project : String) : Bool :=
  (alookup fs (projectFile project)).isSome

/-- Outcome of `JSONFileBackend.create_project`: the returned project dict,
the `False` sentinel, or an uncaught exception. -/
inductive CreateResult where
  | created (name user_key admin_key : String)
  | alreadyExists
  | crashed
deriving DecidableEq

/-- The registry entry `{"name": n, "user_key": u, "admin_key": a}`. -/
def mkEntry (n u a : String) : Json :=
  .obj [("name", .str n), ("user_key", .str u), ("admin_key", .str a)]

/-- `JSONFileBackend.create_project`.  The generated keys are passed in as
parameters `uk`, `ak` (the Python code draws them from `random`/`uuid`).
Returns the outcome together with the directory after the call; the crash on
a registry missing its `"projects"` array happens after the project file was
already written, which the returned directory reflects. -/
def fileCreateProject (fs : FS) (project uk ak : String) : CreateResult × FS :=
  if fileProjectExists fs project then (.alreadyExists, fs)
  else
    let fs1 := aset fs (projectFile project) (.obj [("records", .arr [])])
    match alookup fs1 projectsFile with
    | none =>
        (.created project uk ak,
         aset fs1 projectsFile (.obj [("projects", .arr [mkEntry project uk ak])]))
    | some reg =>
        match reg.index "projects" with
        | some (.arr ps) =>
            (.created project uk ak,
             aset fs1 projectsFile (.obj [("projects", .arr (ps ++ [mkEntry project uk ak]))]))
        | _ => (.crashed, fs1)

/-- The `for p in project_data["projects"]` loop shared by
`is_authorized_to_write` and `is_authorized_to_read`: the first entry whose
`"name"` equals the project decides; `none` models an uncaught exception
(`KeyError`/`TypeError` on a malformed entry).  Evaluation order matches the
Python short-circuit: `p["admin_key"]` is only fetched when the user key
did not match. -/
def scanProjects : List Json → String → Option String → Option String → Option Bool
  | [], _, _, _ => some false
  | p :: rest, project, uk, ak =>
    match p.index "name" with
    | none => none
    | some nv =>
      if jsonEqStr nv project then
        match p.index "user_key" with
        | none => none
        | some ukv =>
          if jsonEqPy ukv uk then some true
          else
            match p.index "admin_key" with
            | none => none
            | some akv => some (jsonEqPy akv ak)
      else scanProjects rest project uk ak

/-- `JSONFileBackend.is_authorized_to_write`.  `none` models an uncaught
exception (registry file missing or malformed while the project file
exists). -/
def fileIsAuthorizedToWrite (fs : FS) (project : String) (uk ak : Option String) :
    Option Bool :=
  if fileProjectExists fs project then
    match alookup fs projectsFile with
    | none => none
    | some reg =>
      match reg.index "projects" with
      | some (.arr ps) => scanProjects ps project uk ak
      | _ => none
  else some false

/-- `JSONFileBackend.is_authorized_to_read` — same body as the write check. -/
def fileIsAuthorizedToRead (fs : FS) (project : String) (uk ak : Option String) :
    Option Bool :=
  if fileProjectExists fs project then
    match alookup fs projectsFile with
    | none => none
    | some reg =>
      match reg.index "projects" with
      | some (.arr ps) => scanProjects ps project uk ak
      | _ => none
  else some false

/-- Outcome of `JSONFileBackend.store`: `True`, `False`, or an uncaught
exception. -/
inductive StoreResult where
  | stored
  | unauthorized
  | crashed
deriving DecidableEq

/-- `JSONFileBackend.store`: re-check write authorization, then read the
project document, append to its `"records"` array and write the whole
document back. -/
def fileStore (fs : FS) (project : String) (uk ak : Option String) (data : Json) :
    StoreResult × FS :=
  match fileIsAuthorizedToWrite fs project uk ak with
  | none => (.crashed, fs)
  | some false => (.unauthorized, fs)
  | some true =>
    match alookup fs (projectFile project) with
    | none => (.crashed, fs)
    | some pj =>
      match pj.index "records" with
      | some (.arr rs) =>
          (.stored, aset fs (projectFile project) (pj.setField "records" (.arr (rs ++ [data]))))
      | _ => (.crashed, fs)

/-- Python `l[:k]` for an `int` bound: a non-negative `k` keeps the first
`k` elements; a negative `k` drops the last `-k`. -/
def pyTake {α : Type} (k : Int) (l : List α) : List α :=
  if 0 ≤ k then l.take k.toNat else l.take (l.length - (-k).toNat)

/-- Outcome of `JSONFileBackend.list_data`: a list of records, the implicit
Python `None` return, or an uncaught exception. -/
inductive ListResult where
  | items (rs : List Json)
  | noneValue
  | crashed

/-- `JSONFileBackend.list_data`: when the project file exists and the caller
is authorized, return its `"records"` array, sliced to `limit` when one is
given; otherwise fall through and return `None`. -/
def fileListData (fs : FS) (project : String) (uk ak : Option String)
    (limit : Option Int) : ListResult :=
  if fileProjectExists fs project then
    match fileIsAuthorizedToRead fs project uk ak with
    | none => .crashed
    | some false => .noneValue
    | some true =>
      match alookup fs (projectFile project) with
      | none => .crashed
      | some pj =>
        match pj.index "records" with
        | some (.arr rs) =>
          match limit with
          | none => .items rs
          | some k => .items (pyTake k rs)
        | _ => .crashed
  else .noneValue

/-- Outcome of `delete_project`: both backends unconditionally raise
`NotImplementedError`. -/
inductive DeleteResult where
  | notImplementedError
deriving DecidableEq

/-- `JSONFileBackend.delete_project`: `raise NotImplementedError()`; no state
is touched. -/
def fileDeleteProject (fs : FS) (project : String) (ak : Option String) :
    DeleteResult × FS :=
  (.notImplementedError, fs)

/-- The registry's own file name is the project file of the name
`"projects"` — the collision behind the reserved-name behavior. -/
theorem projectFile_projects : projectFile "projects" = projectsFile := rfl

end Datatops

namespace Datatops

/-! ## `DynamoDBBackend` (src/datatops/server/backend/dynamodbbackend.py)

The two tables are modelled as the substrate documents them: the records
table is a list of items sorted strictly by (partition key, sort key), on
which `put_item` inserts in key position and replaces the item bearing the
same full key, and `query` on a partition returns that partition's items in
ascending sort-key order, capped by an optional `Limit`; the project table
is keyed by `"name"` alone, so it is an association list. -/

/-- `DATATOPS_TIMESTAMP_KEY`.  It is imported from `datatops/config.py`,
which is not under `src/`; the same constant is carried verbatim by
`src/datatops/__init__.py`, from which this value is taken. -/
def DATATOPS_TIMESTAMP_KEY : String := "__datatops_timestamp_iso"

/-- Modelled from the spec: `DATATOPS_PRIMARY_KEY` lives in
`datatops/config.py`, which is not under `src/`.  The spec (§3) only says the
table backend injects "an injected partition-key field equal to the project
name"; any fixed field name distinct from the timestamp key is faithful. -/
def DATATOPS_PRIMARY_KEY : String := "project"

/-- One item of the records table: its partition-key attribute, its numeric
sort-key attribute, and the full attribute map (which also carries both key
attributes, as `put_item(Item=data)` stores the whole dict). -/
structure DItem where
  partition : String
  sortKey : Int
  item : Dict

/-- The backend's two tables. -/
structure DynState where
  projectTable : List (String × Dict)
  dataTable : List DItem

/-- `DynamoDBBackend._get_project_dict` combined with the Python truthiness
test every caller applies to its result: a missing item and an empty dict
(which is falsy) both count as "no project". -/
def dynGetProject (s : DynState) (project : String) : Option Dict :=
  match alookup s.projectTable project with
  | none => none
  | some pd => if pd.isEmpty then none else some pd

/-- Python `u == d.get(k)` for `u : str`: true exactly when the attribute is
present and is that string. -/
def strEqAttr (u : String) (v : Option Json) : Bool :=
  match v with
  | some (.str t) => u = t
  | _ => false

/-- `DynamoDBBackend.is_authorized_to_write`: either a supplied user key
matching the project's `user_key` attribute or a supplied admin key matching
its `admin_key` attribute authorizes; a `None` key never matches. -/
def dynIsAuthorizedToWrite (s : DynState) (project : String) (uk ak : Option String) :
    Bool :=
  match dynGetProject s project with
  | none => false
  | some pd =>
    (match uk with
     | none => false
     | some u => strEqAttr u (alookup pd "user_key")) ||
    (match ak with
     | none => false
     | some a => strEqAttr a (alookup pd "admin_key"))

/-- `DynamoDBBackend.is_authorized_to_read`: only a supplied admin key
matching the project's `admin_key` attribute authorizes (the `public_read`
branch is commented out in the source, and there is no user-key branch). -/
def dynIsAuthorizedToRead (s : DynState) (project : String) (uk ak : Option String) :
    Bool :=
  match dynGetProject s project with
  | none => false
  | some pd =>
    match ak with
    | none => false
    | some a => strEqAttr a (alookup pd "admin_key")

/-- Strict (partition, sort) key order on items. -/
def keyLt (a b : DItem) : Prop :=
  a.partition < b.partition ∨ (a.partition = b.partition ∧ a.sortKey < b.sortKey)

instance : DecidableRel keyLt := fun a b => by
  unfold keyLt; infer_instance

/-- `put_item` on the records table: insert at the item's key position,
replacing an existing item that bears the same (partition, sort) key. -/
def putItem : List DItem → DItem → List DItem
  | [], it => [it]
  | x :: xs, it =>
    if it.partition = x.partition ∧ it.sortKey = x.sortKey then it :: xs
    else if keyLt it x then it :: x :: xs
    else x :: putItem xs it

/-- The mutation `DynamoDBBackend.store` applies to the caller's `data`
dict before persisting it: `data[DATATOPS_TIMESTAMP_KEY] = int(time.time())`
and `data[DATATOPS_PRIMARY_KEY] = project`. -/
def dynStoreData (d : Dict) (project : String) (t : Int) : Dict :=
  aset (aset d DATATOPS_TIMESTAMP_KEY (.num t)) DATATOPS_PRIMARY_KEY (.str project)

/-- `DynamoDBBackend.store`.  The epoch timestamp `t` drawn from
`int(time.time())` is passed in as a parameter. -/
def dynStore (s : DynState) (project : String) (uk ak : Option String) (d : Dict)
    (t : Int) : Bool × DynState :=
  if dynIsAuthorizedToWrite s project uk ak then
    (true, { s with dataTable := putItem s.dataTable ⟨project, t, dynStoreData d project t⟩ })
  else (false, s)

/-- `DynamoDBBackend.list_data`: unauthorized callers get `[]`; otherwise
query the records table by partition-key equality, which yields the
partition's items in sort-key order, capped by `Limit` when given. -/
def dynListData (s : DynState) (project : String) (uk ak : Option String)
    (limit : Option Int) : List Dict :=
  if dynIsAuthorizedToRead s project uk ak then
    let ms := (s.dataTable.filter (fun it => it.partition = project)).map (fun it => it.item)
    match limit with
    | none => ms
    | some k => ms.take k.toNat
  else []

/-- `DynamoDBBackend.create_project`: return `False` when the project item
already exists (truthily), else put the fresh `{name, user_key, admin_key}`
item.  The generated keys are parameters, as in the file backend. -/
def dynCreateProject (s : DynState) (project uk ak : String) : Option Dict × DynState :=
  match dynGetProject s project with
  | some _ => (none, s)
  | none =>
    let pd : Dict := [("name", .str project), ("user_key", .str uk), ("admin_key", .str ak)]
    (some pd, { s with projectTable := aset s.projectTable project pd })

/-- `DynamoDBBackend.delete_project`: `raise NotImplementedError()`. -/
def dynDeleteProject (s : DynState) (project : String) (ak : Option String) :
    DeleteResult × DynState :=
  (.notImplementedError, s)

end Datatops

namespace Datatops

/-! ## Key generators (src/datatops/server/backend/backend.py) -/

/-- `string.ascii_lowercase + string.digits` — the 36-symbol alphabet. -/
def userKeyAlphabet : List Char := "abcdefghijklmnopqrstuvwxyz0123456789".toList

theorem userKeyAlphabet_length : userKeyAlphabet.length = 36 := rfl

/-- `generate_new_user_key`: `"".join(random.choices(alphabet, k=8))`.  The
eight independent draws of `random.choices` are the parameter `r`. -/
def generate_new_user_key (r : Fin 8 → Fin 36) : String :=
  ⟨List.ofFn fun i => userKeyAlphabet.get (Fin.cast userKeyAlphabet_length.symm (r i))⟩

/-- One lowercase hex digit of `n % 16`. -/
def hexDigit (n : Nat) : Char :=
  "0123456789abcdef".toList.getD (n % 16) '0'

/-- Fixed-width big-endian lowercase hex. -/
def toHex (width n : Nat) : List Char :=
  (List.range width).map fun i => hexDigit (n / 16 ^ (width - 1 - i))

/-- The canonical `str(uuid.UUID)` rendering of a 128-bit value: 32 lowercase
hex digits grouped 8-4-4-4-12 by hyphens. -/
def uuidCanonical (u : Nat) : String :=
  ⟨toHex 8 (u >>> 96) ++ ['-'] ++ toHex 4 (u >>> 80) ++ ['-'] ++ toHex 4 (u >>> 64)
    ++ ['-'] ++ toHex 4 (u >>> 48) ++ ['-'] ++ toHex 12 u⟩

/-- `generate_new_admin_key`: `f"a-{uuid.uuid4()}"`, with the 128-bit random
value of `uuid.uuid4()` as the parameter. -/
def generate_new_admin_key (u : Nat) : String :=
  "a-" ++ uuidCanonical u

end Datatops

namespace Datatops

/-! ## `DatatopsServer.store` (src/datatops/server/__init__.py)

The orchestrator mutates the caller's `data` dict in place
(`data[DATATOPS_TIMESTAMP_KEY] = datetime.datetime.now().isoformat()`) and
hands the same object to the backend, which in the DynamoDB case mutates it
further.  Python references are modelled with an explicit heap of dicts:
the caller holds an address `a`, and every in-place `data[k] = v` updates
the heap cell at `a`. -/

/-- A heap of Python dict objects, addressed by `Nat`. -/
abbrev Heap := List (Nat × Dict)

/-- `DatatopsServer.store` bound to a `JSONFileBackend`: stamp the caller's
dict with the ISO timestamp string `iso` (in place), then delegate.  `none`
models a dangling address, which cannot arise in Python. -/
def serverStoreFile (fs : FS) (h : Heap) (a : Nat) (project : String)
    (uk ak : Option String) (iso : String) : Option (StoreResult × FS × Heap) :=
  match alookup h a with
  | none => none
  | some d =>
    let d1 := aset d DATATOPS_TIMESTAMP_KEY (.str iso)
    let h1 := aset h a d1
    let r := fileStore fs project uk ak (.obj d1)
    some (r.1, r.2, h1)

/-- `DatatopsServer.store` bound to a `DynamoDBBackend`: stamp the caller's
dict with the ISO string (in place), then delegate; on the authorized branch
the backend overwrites that key with the integer epoch `t` and adds the
partition-key field, again in place on the same object. -/
def serverStoreDyn (s : DynState) (h : Heap) (a : Nat) (project : String)
    (uk ak : Option String) (iso : String) (t : Int) :
    Option (Bool × DynState × Heap) :=
  match alookup h a with
  | none => none
  | some d =>
    let d1 := aset d DATATOPS_TIMESTAMP_KEY (.str iso)
    let h1 := aset h a d1
    let r := dynStore s project uk ak d1 t
    some (r.1, r.2, if r.1 then aset h1 a (dynStoreData d1 project t) else h1)

end Datatops

namespace Datatops

/-! ## Supporting lemmas -/

theorem alookup_aset_self {κ α : Type} [DecidableEq κ] (m : List (κ × α)) (k : κ) (v : α) :
    alookup (aset m k v) k = some v := by
  induction m with
  | nil => simp [aset, alookup]
  | cons kv rest ih =>
    obtain ⟨k', v'⟩ := kv
    by_cases h : k' = k
    · simp [aset, h, alookup]
    · simp [aset, h, alookup, ih]

theorem alookup_aset_ne {κ α : Type} [DecidableEq κ] (m : List (κ × α)) {k' k : κ} (v : α)
    (h : k' ≠ k) : alookup (aset m k' v) k = alookup m k := by
  induction m with
  | nil => simp [aset, alookup, h]
  | cons kv rest ih =>
    obtain ⟨k₀, v₀⟩ := kv
    by_cases h0 : k₀ = k'
    · subst h0
      simp [aset, alookup, h]
    · simp only [aset, if_neg h0, alookup]
      by_cases h1 : k₀ = k
      · simp [h1]
      · simp [h1, ih]

theorem mkEntry_name (n u a : String) : (mkEntry n u a).index "name" = some (.str n) := rfl

theorem mkEntry_user (n u a : String) :
    (mkEntry n u a).index "user_key" = some (.str u) := rfl

theorem mkEntry_admin (n u a : String) :
    (mkEntry n u a).index "admin_key" = some (.str a) := rfl

theorem jsonEqStr_str (t s : String) : jsonEqStr (.str t) s = decide (t = s) := rfl

theorem jsonEqPy_str_iff (t : String) (s : Option String) :
    jsonEqPy (.str t) s = true ↔ s = some t := by
  cases s with
  | none => simp [jsonEqPy]
  | some u => simp [jsonEqPy, eq_comm]

/-- The registry credentials the scan of `is_authorized_to_*` resolves:
the user/admin key pair of the first entry carrying the project's name. -/
def findCreds : List (String × String × String) → String → Option (String × String)
  | [], _ => none
  | (n, u, a) :: rest, project =>
    if n = project then some (u, a) else findCreds rest project

/-- On a registry whose entries all have the `{name, user_key, admin_key}`
shape written by `create_project`, the authorization scan returns the Python
disjunction of key matches against the first entry named `project`, and
`False` when there is none. -/
theorem scanProjects_entries (entries : List (String × String × String)) (project : String)
    (uk ak : Option String) :
    scanProjects (entries.map fun e => mkEntry e.1 e.2.1 e.2.2) project uk ak =
      some (match findCreds entries project with
            | some (u0, a0) => jsonEqPy (.str u0) uk || jsonEqPy (.str a0) ak
            | none => false) := by
  induction entries with
  | nil => rfl
  | cons e rest ih =>
    obtain ⟨n, u, a⟩ := e
    by_cases h : n = project
    · simp only [List.map_cons, scanProjects, mkEntry_name, mkEntry_user, mkEntry_admin,
        jsonEqStr_str, h, decide_True, if_true, findCreds, if_pos]
      cases hj : jsonEqPy (.str u) uk <;> simp [hj]
    · simp only [List.map_cons, scanProjects, mkEntry_name, mkEntry_user, mkEntry_admin,
        jsonEqStr_str, h, decide_False, if_false, findCreds, if_neg, ih]
      simp

/-- Both file-backend authorization checks, computed on a well-shaped
registry: the project file exists and the registry's `"projects"` array
consists of `create_project`-shaped entries. -/
theorem fileAuth_spec (fs : FS) (project : String) (uk ak : Option String)
    (entries : List (String × String × String)) (reg : Json)
    (hex : fileProjectExists fs project = true)
    (hreg : alookup fs projectsFile = some reg)
    (hidx : reg.index "projects" =
      some (.arr (entries.map fun e => mkEntry e.1 e.2.1 e.2.2))) :
    fileIsAuthorizedToWrite fs project uk ak =
      some (match findCreds entries project with
            | some (u0, a0) => jsonEqPy (.str u0) uk || jsonEqPy (.str a0) ak
            | none => false) ∧
    fileIsAuthorizedToRead fs project uk ak =
      some (match findCreds entries project with
            | some (u0, a0) => jsonEqPy (.str u0) uk || jsonEqPy (.str a0) ak
            | none => false) := by
  constructor
  · simp [fileIsAuthorizedToWrite, hex, hreg, hidx, scanProjects_entries]
  · simp [fileIsAuthorizedToRead, hex, hreg, hidx, scanProjects_entries]

theorem pyTake_of_nonneg {α : Type} {k : Int} (hk : 0 ≤ k) (l : List α) :
    pyTake k l = l.take k.toNat := by
  simp [pyTake, hk]

end Datatops

namespace Datatops

/-! ### Ordered-insertion lemmas for the records table -/

/-- A records table in substrate order: strictly sorted by
(partition key, sort key). -/
def tableSorted (tbl : List DItem) : Prop := List.Pairwise keyLt tbl

theorem keyLt_trans {a b c : DItem} (hab : keyLt a b) (hbc : keyLt b c) : keyLt a c := by
  rcases hab with h | ⟨he, hs⟩
  · rcases hbc with h' | ⟨he', _⟩
    · exact Or.inl (lt_trans h h')
    · exact Or.inl (he' ▸ h)
  · rcases hbc with h' | ⟨he', hs'⟩
    · exact Or.inl (he ▸ h')
    · exact Or.inr ⟨he.trans he', lt_trans hs hs'⟩

theorem keyLt_of_not_of_ne {a b : DItem} (h1 : ¬ keyLt a b)
    (h2 : ¬ (a.partition = b.partition ∧ a.sortKey = b.sortKey)) : keyLt b a := by
  rcases lt_trichotomy a.partition b.partition with h | h | h
  · exact absurd (Or.inl h) h1
  · rcases lt_trichotomy a.sortKey b.sortKey with h' | h' | h'
    · exact absurd (Or.inr ⟨h, h'⟩) h1
    · exact absurd ⟨h, h'⟩ h2
    · exact Or.inr ⟨h.symm, h'⟩
  · exact Or.inl h

theorem mem_putItem_self (tbl : List DItem) (it : DItem) : it ∈ putItem tbl it := by
  induction tbl with
  | nil => simp [putItem]
  | cons x xs ih =>
    unfold putItem
    by_cases h2 : it.partition = x.partition ∧ it.sortKey = x.sortKey
    · simp [h2]
    · rw [if_neg h2]
      by_cases h1 : keyLt it x
      · simp [h1]
      · simp only [if_neg h1, List.mem_cons]
        exact Or.inr ih

theorem mem_of_mem_putItem {tbl : List DItem} {it y : DItem}
    (hy : y ∈ putItem tbl it) : y = it ∨ y ∈ tbl := by
  induction tbl with
  | nil => simpa [putItem] using hy
  | cons x xs ih =>
    unfold putItem at hy
    by_cases h2 : it.partition = x.partition ∧ it.sortKey = x.sortKey
    · rw [if_pos h2] at hy
      rcases List.mem_cons.mp hy with h | h
      · exact Or.inl h
      · exact Or.inr (List.mem_cons_of_mem x h)
    · rw [if_neg h2] at hy
      by_cases h1 : keyLt it x
      · rw [if_pos h1] at hy
        rcases List.mem_cons.mp hy with h | h
        · exact Or.inl h
        · exact Or.inr h
      · rw [if_neg h1] at hy
        rcases List.mem_cons.mp hy with h | h
        · exact Or.inr (h ▸ List.mem_cons_self x xs)
        · rcases ih h with h' | h'
          · exact Or.inl h'
          · exact Or.inr (List.mem_cons_of_mem x h')

/-- `put_item` only ever displaces the item bearing the same full key: every
item with a different (partition, sort) key survives. -/
theorem mem_putItem_of_mem {tbl : List DItem} {it y : DItem} (hy : y ∈ tbl)
    (hne : ¬ (it.partition = y.partition ∧ it.sortKey = y.sortKey)) :
    y ∈ putItem tbl it := by
  induction tbl with
  | nil => cases hy
  | cons x xs ih =>
    unfold putItem
    by_cases h2 : it.partition = x.partition ∧ it.sortKey = x.sortKey
    · rw [if_pos h2]
      rcases List.mem_cons.mp hy with h | h
      · exact absurd (h ▸ h2) hne
      · exact List.mem_cons_of_mem it h
    · rw [if_neg h2]
      by_cases h1 : keyLt it x
      · rw [if_pos h1]
        exact List.mem_cons_of_mem it hy
      · rw [if_neg h1]
        rcases List.mem_cons.mp hy with h | h
        · exact h ▸ List.mem_cons_self x _
        · exact List.mem_cons_of_mem x (ih h)

theorem putItem_pairwise {tbl : List DItem} (it : DItem) (h : tableSorted tbl) :
    tableSorted (putItem tbl it) := by
  induction tbl with
  | nil => simp [putItem, tableSorted]
  | cons x xs ih =>
    rw [tableSorted, List.pairwise_cons] at h
    obtain ⟨hx, hxs⟩ := h
    unfold putItem
    by_cases h2 : it.partition = x.partition ∧ it.sortKey = x.sortKey
    · rw [if_pos h2]
      refine List.pairwise_cons.mpr ⟨?_, hxs⟩
      intro y hy
      have := hx y hy
      rcases this with h | ⟨he, hs⟩
      · exact Or.inl (h2.1 ▸ h)
      · exact Or.inr ⟨h2.1.trans he, h2.2 ▸ hs⟩
    · rw [if_neg h2]
      by_cases h1 : keyLt it x
      · rw [if_pos h1]
        refine List.pairwise_cons.mpr ⟨?_, List.pairwise_cons.mpr ⟨hx, hxs⟩⟩
        intro y hy
        rcases List.mem_cons.mp hy with h | h
        · exact h ▸ h1
        · exact keyLt_trans h1 (hx y h)
      · rw [if_neg h1]
        refine List.pairwise_cons.mpr ⟨?_, ih hxs⟩
        intro y hy
        rcases mem_of_mem_putItem hy with h | h
        · exact h ▸ keyLt_of_not_of_ne h1 h2
        · exact hx y h

/-- On a sorted records table, the items a partition-key query returns are
strictly increasing in the sort key, i.e. they come back in timestamp
order. -/
theorem filter_sortKey_sorted (tbl : List DItem) (project : String)
    (h : tableSorted tbl) :
    List.Pairwise (fun a b : DItem => a.sortKey < b.sortKey)
      (tbl.filter fun it => it.partition = project) := by
  have hsub : List.Pairwise keyLt (tbl.filter fun it => it.partition = project) :=
    List.Pairwise.sublist (List.filter_sublist tbl) h
  refine List.Pairwise.imp_of_mem ?_ hsub
  intro a b ha hb hab
  have hpa : a.partition = project := by
    have := (List.mem_filter.mp ha).2
    exact of_decide_eq_true this
  have hpb : b.partition = project := by
    have := (List.mem_filter.mp hb).2
    exact of_decide_eq_true this
  rcases hab with h' | ⟨_, hs⟩
  · rw [hpa, hpb] at h'
    exact absurd h' (lt_irrefl project)
  · exact hs

end Datatops

namespace Datatops

/-! ### Key-generator lemmas -/

theorem generate_new_user_key_length (r : Fin 8 → Fin 36) :
    (generate_new_user_key r).length = 8 := by
  simp [generate_new_user_key, String.length]

theorem generate_new_user_key_mem (r : Fin 8 → Fin 36) :
    ∀ c ∈ (generate_new_user_key r).data, c ∈ userKeyAlphabet := by
  intro c hc
  simp only [generate_new_user_key, List.mem_ofFn] at hc
  obtain ⟨i, hi⟩ := hc
  exact hi ▸ List.get_mem _ _ _

theorem toHex_length (w n : Nat) : (toHex w n).length = w := by
  simp [toHex]

theorem uuidCanonical_length (u : Nat) : (uuidCanonical u).length = 36 := by
  simp [uuidCanonical, String.length, toHex_length]

theorem generate_new_admin_key_length (u : Nat) :
    (generate_new_admin_key u).length = 38 := by
  rw [generate_new_admin_key, String.length_append, uuidCanonical_length]
  rfl

theorem generate_new_admin_key_prefix (u : Nat) :
    (generate_new_admin_key u).data.take 2 = ['a', '-'] := rfl

end Datatops

namespace Datatops

/-! ## The claims -/

/-- C7: every user key the generator can return is an 8-character string over
the 36-symbol lowercase-alphanumeric alphabet; every admin key is the literal
`"a-"` marker followed by a canonical UUID rendering (so it is 38 characters
long), and consequently no user key can equal an admin key. -/
theorem claim_C7_key_generators :
    (∀ r : Fin 8 → Fin 36,
      (generate_new_user_key r).length = 8 ∧
      ∀ c ∈ (generate_new_user_key r).data, c ∈ userKeyAlphabet) ∧
    (∀ u : Nat,
      generate_new_admin_key u = "a-" ++ uuidCanonical u ∧
      (generate_new_admin_key u).data.take 2 = ['a', '-'] ∧
      (generate_new_admin_key u).length = 38) ∧
    (∀ (r : Fin 8 → Fin 36) (u : Nat),
      generate_new_user_key r ≠ generate_new_admin_key u) := by
  refine ⟨fun r => ⟨generate_new_user_key_length r, generate_new_user_key_mem r⟩,
    fun u => ⟨rfl, generate_new_admin_key_prefix u, generate_new_admin_key_length u⟩,
    fun r u h => ?_⟩
  have h8 := generate_new_user_key_length r
  rw [h, generate_new_admin_key_length u] at h8
  exact absurd h8 (by norm_num)

/-- Witness for C7: a concrete draw, with the membership hypothesis of the
alphabet clause discharged at the character `'a'`. -/
theorem claim_C7_witness :
    ('a' : Char) ∈ userKeyAlphabet :=
  (claim_C7_key_generators.1 (fun _ => (⟨0, by norm_num⟩ : Fin 36))).2 'a' (by decide)

/-- C5: for every backend, every project name and every admin-key argument,
`delete_project` fails with the not-implemented signal and leaves every piece
of stored state unchanged. -/
theorem claim_C5_delete_not_implemented :
    (∀ (fs : FS) (project : String) (ak : Option String),
      fileDeleteProject fs project ak = (.notImplementedError, fs)) ∧
    (∀ (s : DynState) (project : String) (ak : Option String),
      dynDeleteProject s project ak = (.notImplementedError, s)) :=
  ⟨fun _ _ _ => rfl, fun _ _ _ => rfl⟩

/-- C4: `store` re-checks authorization internally; whenever the credentials
are not authorized to write, it returns the `False` sentinel and leaves the
stored state (hence every project's record sequence) unchanged. -/
theorem claim_C4_store_rechecks_auth :
    (∀ (fs : FS) (project : String) (uk ak : Option String) (d : Json),
      fileIsAuthorizedToWrite fs project uk ak = some false →
      fileStore fs project uk ak d = (.unauthorized, fs)) ∧
    (∀ (s : DynState) (project : String) (uk ak : Option String) (d : Dict) (t : Int),
      dynIsAuthorizedToWrite s project uk ak = false →
      dynStore s project uk ak d t = (false, s)) := by
  constructor
  · intro fs project uk ak d h
    simp [fileStore, h]
  · intro s project uk ak d t h
    simp [dynStore, h]

/-- Witness for C4: a caller with no credentials against an empty store. -/
theorem claim_C4_witness :
    fileStore [] "alpha" none none (Json.obj []) = (StoreResult.unauthorized, []) ∧
    dynStore ⟨[], []⟩ "alpha" none none [] 0 = (false, ⟨[], []⟩) :=
  ⟨claim_C4_store_rechecks_auth.1 [] "alpha" none none (Json.obj []) rfl,
   claim_C4_store_rechecks_auth.2 ⟨[], []⟩ "alpha" none none [] 0 rfl⟩

/-- C2: for an authorized caller, `list_data` with no limit returns every
stored record; with `limit = k ≥ 0` it returns exactly `min(k, n)` records,
the first `k` of the stored sequence, on both backends. -/
theorem claim_C2_list_limit :
    (∀ (fs : FS) (project : String) (uk ak : Option String) (pj : Json) (rs : List Json),
      alookup fs (projectFile project) = some pj →
      pj.index "records" = some (.arr rs) →
      fileIsAuthorizedToRead fs project uk ak = some true →
      fileListData fs project uk ak none = .items rs ∧
      ∀ k : Int, 0 ≤ k →
        fileListData fs project uk ak (some k) = .items (rs.take k.toNat) ∧
        (rs.take k.toNat).length = min k.toNat rs.length) ∧
    (∀ (s : DynState) (project : String) (uk ak : Option String),
      dynIsAuthorizedToRead s project uk ak = true →
      dynListData s project uk ak none =
        ((s.dataTable.filter fun it => it.partition = project).map fun it => it.item) ∧
      ∀ k : Int, 0 ≤ k →
        dynListData s project uk ak (some k) =
          (((s.dataTable.filter fun it => it.partition = project).map fun it => it.item).take
            k.toNat) ∧
        ((((s.dataTable.filter fun it => it.partition = project).map fun it =>
            it.item).take k.toNat)).length =
          min k.toNat
            (((s.dataTable.filter fun it => it.partition = project).map fun it =>
              it.item)).length) := by
  constructor
  · intro fs project uk ak pj rs hpj hrec hauth
    have hex : fileProjectExists fs project = true := by
      simp [fileProjectExists, hpj]
    constructor
    · simp [fileListData, hex, hauth, hpj, hrec]
    · intro k hk
      constructor
      · simp [fileListData, hex, hauth, hpj, hrec, pyTake_of_nonneg hk]
      · exact List.length_take k.toNat rs
  · intro s project uk ak hauth
    refine ⟨by simp [dynListData, hauth], fun k hk => ⟨by simp [dynListData, hauth], ?_⟩⟩
    exact List.length_take _ _

/-- Witness for C2: a two-record project read with `limit = 1` through each
backend. -/
theorem claim_C2_witness :
    fileListData
      [("alpha.json", Json.obj [("records", Json.arr [Json.str "r1", Json.str "r2"])]),
       ("projects.json", Json.obj [("projects", Json.arr [mkEntry "alpha" "u1" "a-1"])])]
      "alpha" (some "u1") none (some 1) = ListResult.items [Json.str "r1"] ∧
    dynListData
      ⟨[("alpha", [("name", Json.str "alpha"), ("user_key", Json.str "u1"),
                   ("admin_key", Json.str "a-1")])],
       [⟨"alpha", 5, [("x", Json.num 1)]⟩, ⟨"alpha", 6, [("x", Json.num 2)]⟩]⟩
      "alpha" none (some "a-1") (some 1) = [[("x", Json.num 1)]] :=
  ⟨((claim_C2_list_limit.1
      [("alpha.json", Json.obj [("records", Json.arr [Json.str "r1", Json.str "r2"])]),
       ("projects.json", Json.obj [("projects", Json.arr [mkEntry "alpha" "u1" "a-1"])])]
      "alpha" (some "u1") none
      (Json.obj [("records", Json.arr [Json.str "r1", Json.str "r2"])])
      [Json.str "r1", Json.str "r2"] rfl rfl rfl).2 1 (by norm_num)).1,
   ((claim_C2_list_limit.2
      ⟨[("alpha", [("name", Json.str "alpha"), ("user_key", Json.str "u1"),
                   ("admin_key", Json.str "a-1")])],
       [⟨"alpha", 5, [("x", Json.num 1)]⟩, ⟨"alpha", 6, [("x", Json.num 2)]⟩]⟩
      "alpha" none (some "a-1") rfl).2 1 (by norm_num)).1⟩

/-- C10: the two backends signal "no access" differently: the file backend's
`list_data` returns the Python `None` exactly when the project is missing or
the credentials are unauthorized, while the table backend's `list_data`
returns the empty list whenever the credentials are unauthorized. -/
theorem claim_C10_listdata_absence_signalling :
    (∀ (fs : FS) (project : String) (uk ak : Option String) (limit : Option Int) (b : Bool),
      fileIsAuthorizedToRead fs project uk ak = some b →
      (∀ pj, alookup fs (projectFile project) = some pj →
        ∃ rs, pj.index "records" = some (.arr rs)) →
      (fileListData fs project uk ak limit = .noneValue ↔
        (fileProjectExists fs project = false ∨
         fileIsAuthorizedToRead fs project uk ak = some false))) ∧
    (∀ (s : DynState) (project : String) (uk ak : Option String) (limit : Option Int),
      dynIsAuthorizedToRead s project uk ak = false →
      dynListData s project uk ak limit = []) := by
  constructor
  · intro fs project uk ak limit b hauth hshape
    cases hex : fileProjectExists fs project with
    | false =>
      simp [fileListData, hex]
    | true =>
      cases b with
      | false =>
        simp only [fileListData, hex, if_true, hauth]
        simp [hauth]
      | true =>
        obtain ⟨pj, hpj⟩ : ∃ pj, alookup fs (projectFile project) = some pj := by
          rw [fileProjectExists] at hex
          exact Option.isSome_iff_exists.mp hex
        obtain ⟨rs, hrec⟩ := hshape pj hpj
        simp only [fileListData, hex, if_true, hauth, hpj, hrec]
        cases limit with
        | none => simp [hauth]
        | some k => simp [hauth]
  · intro s project uk ak limit hauth
    simp [dynListData, hauth]

/-- Witness for C10: a missing project on the file backend and a bare user
key on the table backend. -/
theorem claim_C10_witness :
    fileListData [] "alpha" (some "bad") none none = ListResult.noneValue ∧
    dynListData
      ⟨[("alpha", [("name", Json.str "alpha"), ("user_key", Json.str "u1"),
                   ("admin_key", Json.str "a-1")])],
       [⟨"alpha", 5, [("x", Json.num 1)]⟩]⟩
      "alpha" (some "u1") none none = [] :=
  ⟨(claim_C10_listdata_absence_signalling.1 [] "alpha" (some "bad") none none false rfl
      (fun _ hpj => Option.noConfusion hpj)).mpr (Or.inl rfl),
   claim_C10_listdata_absence_signalling.2
      ⟨[("alpha", [("name", Json.str "alpha"), ("user_key", Json.str "u1"),
                   ("admin_key", Json.str "a-1")])],
       [⟨"alpha", 5, [("x", Json.num 1)]⟩]⟩
      "alpha" (some "u1") none none rfl⟩

/-- C1, counterexample: on the table backend the correct user key authorizes
`store` but `list_data` with that same key returns no data, while the admin
key returns the stored record — so `list_data` does not succeed iff the
user key or the admin key matches. -/
theorem claim_C1_counterexample :
    dynIsAuthorizedToWrite
      ⟨[("alpha", [("name", Json.str "alpha"), ("user_key", Json.str "u1"),
                   ("admin_key", Json.str "a-1")])],
       [⟨"alpha", 5, [("x", Json.num 1)]⟩]⟩
      "alpha" (some "u1") none = true ∧
    dynListData
      ⟨[("alpha", [("name", Json.str "alpha"), ("user_key", Json.str "u1"),
                   ("admin_key", Json.str "a-1")])],
       [⟨"alpha", 5, [("x", Json.num 1)]⟩]⟩
      "alpha" (some "u1") none none = [] ∧
    dynListData
      ⟨[("alpha", [("name", Json.str "alpha"), ("user_key", Json.str "u1"),
                   ("admin_key", Json.str "a-1")])],
       [⟨"alpha", 5, [("x", Json.num 1)]⟩]⟩
      "alpha" none (some "a-1") none = [[("x", Json.num 1)]] :=
  ⟨rfl, rfl, rfl⟩

/-- C1, amended: in the file backend `store` and `list_data` both succeed iff
the supplied user key equals the project's stored user key or the supplied
admin key equals its stored admin key; in the table backend `store` follows
that same symmetric rule (an absent key never matches), but `list_data`
succeeds only on an admin-key match — a matching user key alone yields no
data. -/
theorem claim_C1_authorization :
    (∀ (fs : FS) (project : String) (uk ak : Option String) (uk0 ak0 : String)
       (entries : List (String × String × String)) (reg pj : Json) (rs : List Json)
       (d : Json),
      alookup fs (projectFile project) = some pj →
      pj.index "records" = some (.arr rs) →
      alookup fs projectsFile = some reg →
      reg.index "projects" =
        some (.arr (entries.map fun e => mkEntry e.1 e.2.1 e.2.2)) →
      findCreds entries project = some (uk0, ak0) →
      (((uk = some uk0 ∨ ak = some ak0) →
          (fileStore fs project uk ak d).1 = .stored ∧
          fileListData fs project uk ak none = .items rs) ∧
       (uk ≠ some uk0 → ak ≠ some ak0 →
          fileStore fs project uk ak d = (.unauthorized, fs) ∧
          fileListData fs project uk ak none = .noneValue))) ∧
    (∀ (s : DynState) (project : String) (uk ak : Option String) (uk0 ak0 : String)
       (d : Dict) (t : Int) (limit : Option Int),
      alookup s.projectTable project =
        some [("name", .str project), ("user_key", .str uk0), ("admin_key", .str ak0)] →
      (((dynStore s project uk ak d t).1 = true ↔ (uk = some uk0 ∨ ak = some ak0)) ∧
       (dynIsAuthorizedToRead s project uk ak = true ↔ ak = some ak0) ∧
       (ak ≠ some ak0 → dynListData s project uk ak limit = []))) := by
  constructor
  · intro fs project uk ak uk0 ak0 entries reg pj rs d hpj hrec hreg hidx hfind
    have hex : fileProjectExists fs project = true := by
      simp [fileProjectExists, hpj]
    obtain ⟨hw, hr⟩ := fileAuth_spec fs project uk ak entries reg hex hreg hidx
    rw [hfind] at hw hr
    dsimp only at hw hr
    constructor
    · intro hok
      have hb : (jsonEqPy (.str uk0) uk || jsonEqPy (.str ak0) ak) = true := by
        rcases hok with h | h
        · simp [jsonEqPy_str_iff, h]
        · simp [jsonEqPy_str_iff, h]
      rw [hb] at hw hr
      constructor
      · simp [fileStore, hw, hpj, hrec]
      · simp [fileListData, hex, hr, hpj, hrec]
    · intro huk hak
      have hu : jsonEqPy (.str uk0) uk = false := by
        rw [Bool.eq_false_iff]
        intro hh
        exact huk ((jsonEqPy_str_iff uk0 uk).mp hh)
      have ha : jsonEqPy (.str ak0) ak = false := by
        rw [Bool.eq_false_iff]
        intro hh
        exact hak ((jsonEqPy_str_iff ak0 ak).mp hh)
      rw [hu, ha] at hw hr
      constructor
      · simp [fileStore, hw]
      · simp [fileListData, hex, hr]
  · intro s project uk ak uk0 ak0 d t limit hpd
    have hget : dynGetProject s project =
        some [("name", .str project), ("user_key", .str uk0), ("admin_key", .str ak0)] := by
      simp [dynGetProject, hpd]
    have hu : alookup
        ([("name", Json.str project), ("user_key", Json.str uk0),
          ("admin_key", Json.str ak0)] : Dict) "user_key" = some (.str uk0) := rfl
    have ha : alookup
        ([("name", Json.str project), ("user_key", Json.str uk0),
          ("admin_key", Json.str ak0)] : Dict) "admin_key" = some (.str ak0) := rfl
    have hw : dynIsAuthorizedToWrite s project uk ak = true ↔
        (uk = some uk0 ∨ ak = some ak0) := by
      simp only [dynIsAuthorizedToWrite, hget, hu, ha]
      cases uk <;> cases ak <;> simp [strEqAttr]
    have hr : dynIsAuthorizedToRead s project uk ak = true ↔ ak = some ak0 := by
      simp only [dynIsAuthorizedToRead, hget, ha]
      cases ak <;> simp [strEqAttr]
    refine ⟨?_, hr, ?_⟩
    · by_cases hauth : dynIsAuthorizedToWrite s project uk ak = true
      · simp [dynStore, hauth, hw.mp hauth]
      · have : dynIsAuthorizedToWrite s project uk ak = false :=
          Bool.eq_false_iff.mpr hauth
        simp only [dynStore, this, if_false, Bool.false_eq_true, false_iff]
        intro hok
        exact hauth (hw.mpr hok)
    · intro hak
      have : dynIsAuthorizedToRead s project uk ak = false := by
        rw [Bool.eq_false_iff]
        intro hh
        exact hak (hr.mp hh)
      simp [dynListData, this]

/-- Witness for C1 (amended): concrete stores and reads on both backends. -/
theorem claim_C1_witness :
    (fileStore
      [("alpha.json", Json.obj [("records", Json.arr [])]),
       ("projects.json", Json.obj [("projects", Json.arr [mkEntry "alpha" "u1" "a-1"])])]
      "alpha" (some "u1") none (Json.str "payload")).1 = StoreResult.stored ∧
    (dynIsAuthorizedToRead
      ⟨[("alpha", [("name", Json.str "alpha"), ("user_key", Json.str "u1"),
                   ("admin_key", Json.str "a-1")])], []⟩
      "alpha" none (some "a-1") = true) :=
  ⟨((claim_C1_authorization.1
      [("alpha.json", Json.obj [("records", Json.arr [])]),
       ("projects.json", Json.obj [("projects", Json.arr [mkEntry "alpha" "u1" "a-1"])])]
      "alpha" (some "u1") none "u1" "a-1" [("alpha", "u1", "a-1")]
      (Json.obj [("projects", Json.arr [mkEntry "alpha" "u1" "a-1"])])
      (Json.obj [("records", Json.arr [])]) [] (Json.str "payload")
      rfl rfl rfl rfl rfl).1 (Or.inl rfl)).1,
   ((claim_C1_authorization.2
      ⟨[("alpha", [("name", Json.str "alpha"), ("user_key", Json.str "u1"),
                   ("admin_key", Json.str "a-1")])], []⟩
      "alpha" none (some "a-1") "u1" "a-1" [] 0 none rfl).2.1).mpr rfl⟩

theorem projectFile_inj {p q : String} (h : projectFile p = projectFile q) : p = q := by
  unfold projectFile at h
  have hd := congrArg String.data h
  rw [String.data_append, String.data_append] at hd
  exact String.ext (List.append_cancel_right hd)

/-- C3, counterexample: in the file backend the name `"projects"` is fresh on
an empty store, yet its first `create_project` call does not succeed — it
crashes (after writing `projects.json` as a project document) instead of
returning a descriptor. -/
theorem claim_C3_counterexample :
    fileProjectExists ([] : FS) "projects" = false ∧
    fileCreateProject [] "projects" "u1" "a-1" =
      (CreateResult.crashed, [("projects.json", Json.obj [("records", Json.arr [])])]) :=
  ⟨rfl, rfl⟩

/-- C3, amended: `create_project` is create-if-absent on both backends — an
existing project makes the call return the failure sentinel with all stored
state (hence the existing keys) unchanged, and a first call for a fresh name
succeeds with a descriptor carrying the name and both keys — except that in
the file backend the name `"projects"` collides with the registry document
and can never be created (the well-formed-registry hypothesis below rules
out only states that are themselves products of that collision). -/
theorem claim_C3_create_if_absent :
    (∀ (fs : FS) (project uk ak : String),
      fileProjectExists fs project = true →
      fileCreateProject fs project uk ak = (.alreadyExists, fs)) ∧
    (∀ (fs : FS) (project uk ak : String),
      project ≠ "projects" →
      fileProjectExists fs project = false →
      (alookup fs projectsFile = none ∨
        ∃ reg ps, alookup fs projectsFile = some reg ∧
          reg.index "projects" = some (.arr ps)) →
      (fileCreateProject fs project uk ak).1 = .created project uk ak) ∧
    (∀ (s : DynState) (project uk ak : String) (pd : Dict),
      alookup s.projectTable project = some pd → pd ≠ [] →
      dynCreateProject s project uk ak = (none, s)) ∧
    (∀ (s : DynState) (project uk ak : String),
      alookup s.projectTable project = none →
      (dynCreateProject s project uk ak).1 =
        some [("name", .str project), ("user_key", .str uk), ("admin_key", .str ak)]) := by
  refine ⟨?_, ?_, ?_, ?_⟩
  · intro fs project uk ak hex
    simp [fileCreateProject, hex]
  · intro fs project uk ak hname hex hreg
    have hne : projectFile project ≠ projectsFile := fun h => hname (projectFile_inj h)
    have hlook : alookup (aset fs (projectFile project)
        (Json.obj [("records", Json.arr [])])) projectsFile = alookup fs projectsFile :=
      alookup_aset_ne fs _ hne
    rcases hreg with hnone | ⟨reg, ps, hsome, hidx⟩
    · simp [fileCreateProject, hex, hlook, hnone]
    · simp [fileCreateProject, hex, hlook, hsome, hidx]
  · intro s project uk ak pd hpd hne
    have : pd.isEmpty = false := by
      cases pd with
      | nil => exact absurd rfl hne
      | cons x xs => rfl
    simp [dynCreateProject, dynGetProject, hpd, this]
  · intro s project uk ak hpd
    simp [dynCreateProject, dynGetProject, hpd]

/-- Witness for C3 (amended): a duplicate create, a fresh create, and their
table-backend counterparts. -/
theorem claim_C3_witness :
    fileCreateProject [("alpha.json", Json.obj [("records", Json.arr [])])]
      "alpha" "u2" "a-2" =
      (CreateResult.alreadyExists, [("alpha.json", Json.obj [("records", Json.arr [])])]) ∧
    (fileCreateProject [] "beta" "u1" "a-1").1 = CreateResult.created "beta" "u1" "a-1" ∧
    dynCreateProject
      ⟨[("alpha", [("name", Json.str "alpha"), ("user_key", Json.str "u1"),
                   ("admin_key", Json.str "a-1")])], []⟩ "alpha" "u2" "a-2" =
      (none,
       ⟨[("alpha", [("name", Json.str "alpha"), ("user_key", Json.str "u1"),
                    ("admin_key", Json.str "a-1")])], []⟩) ∧
    (dynCreateProject ⟨[], []⟩ "beta" "u1" "a-1").1 =
      some [("name", Json.str "beta"), ("user_key", Json.str "u1"),
            ("admin_key", Json.str "a-1")] :=
  ⟨claim_C3_create_if_absent.1 [("alpha.json", Json.obj [("records", Json.arr [])])]
      "alpha" "u2" "a-2" rfl,
   claim_C3_create_if_absent.2.1 [] "beta" "u1" "a-1" (by decide) rfl (Or.inl rfl),
   claim_C3_create_if_absent.2.2.1
      ⟨[("alpha", [("name", Json.str "alpha"), ("user_key", Json.str "u1"),
                   ("admin_key", Json.str "a-1")])], []⟩ "alpha" "u2" "a-2"
      [("name", Json.str "alpha"), ("user_key", Json.str "u1"),
       ("admin_key", Json.str "a-1")] rfl (by simp),
   claim_C3_create_if_absent.2.2.2 ⟨[], []⟩ "beta" "u1" "a-1" rfl⟩

theorem fileProjectExists_projects (fs : FS) :
    fileProjectExists fs "projects" = (alookup fs projectsFile).isSome := by
  rw [fileProjectExists, projectFile_projects]

theorem createProjects_of_registry (fs : FS) (uk ak : String)
    (hsome : (alookup fs projectsFile).isSome = true) :
    fileCreateProject fs "projects" uk ak = (.alreadyExists, fs) := by
  have hex : fileProjectExists fs "projects" = true := by
    rw [fileProjectExists_projects, hsome]
  simp [fileCreateProject, hex]

theorem createProjects_of_noRegistry (fs : FS) (uk ak : String)
    (hnone : alookup fs projectsFile = none) :
    fileCreateProject fs "projects" uk ak =
      (.crashed, aset fs projectsFile (.obj [("records", .arr [])])) := by
  have hex : fileProjectExists fs "projects" = false := by
    rw [fileProjectExists_projects, hnone]
    rfl
  have hlook : alookup (aset fs projectsFile
      (Json.obj [("records", Json.arr [])])) projectsFile =
      some (Json.obj [("records", Json.arr [])]) :=
    alookup_aset_self fs projectsFile _
  simp [fileCreateProject, hex, projectFile_projects, hlook, Json.index, alookup]

/-- C8: the file backend's registry document collides with the project name
`"projects"`: whenever the registry file exists, `create_project("projects")`
reports "already exists"; on a store with no registry yet, the call writes
`{"records": []}` to `projects.json` and then crashes looking up the
registry's `"projects"` key in that very document; in no state does it
succeed. -/
theorem claim_C8_projects_name_reserved :
    (∀ (fs : FS) (uk ak : String),
      (alookup fs projectsFile).isSome = true →
      fileCreateProject fs "projects" uk ak = (.alreadyExists, fs)) ∧
    (∀ (fs : FS) (uk ak : String),
      alookup fs projectsFile = none →
      fileCreateProject fs "projects" uk ak =
        (.crashed, aset fs projectsFile (.obj [("records", .arr [])]))) ∧
    (∀ (fs : FS) (uk ak n u a : String),
      (fileCreateProject fs "projects" uk ak).1 ≠ .created n u a) := by
  refine ⟨createProjects_of_registry, createProjects_of_noRegistry, ?_⟩
  intro fs uk ak n u a
  cases hreg : alookup fs projectsFile with
  | some v =>
    have h := createProjects_of_registry fs uk ak (by rw [hreg]; rfl)
    rw [h]
    simp
  | none =>
    have h := createProjects_of_noRegistry fs uk ak hreg
    rw [h]
    simp

/-- Witness for C8: both branches at concrete stores. -/
theorem claim_C8_witness :
    fileCreateProject [("projects.json", Json.obj [("projects", Json.arr [])])]
      "projects" "u1" "a-1" =
      (CreateResult.alreadyExists,
       [("projects.json", Json.obj [("projects", Json.arr [])])]) ∧
    fileCreateProject [] "projects" "u1" "a-1" =
      (CreateResult.crashed, [("projects.json", Json.obj [("records", Json.arr [])])]) :=
  ⟨claim_C8_projects_name_reserved.1 [("projects.json", Json.obj [("projects", Json.arr [])])]
      "u1" "a-1" rfl,
   claim_C8_projects_name_reserved.2.1 [] "u1" "a-1" rfl⟩

/-- C6, counterexample: the table backend's `put_item` replaces the item
bearing the same (partition, sort) key, and the sort key is the injected
second-resolution epoch timestamp — so a second authorized `store` in the
same second replaces the earlier record instead of leaving it immutable. -/
theorem claim_C6_counterexample :
    dynStore
      ⟨[("alpha", [("name", Json.str "alpha"), ("user_key", Json.str "u1"),
                   ("admin_key", Json.str "a-1")])],
       [⟨"alpha", 100, [("v", Json.str "first")]⟩]⟩
      "alpha" (some "u1") none [("v", Json.str "second")] 100 =
      (true,
       ⟨[("alpha", [("name", Json.str "alpha"), ("user_key", Json.str "u1"),
                    ("admin_key", Json.str "a-1")])],
        [⟨"alpha", 100, [("v", Json.str "second"),
                         (DATATOPS_TIMESTAMP_KEY, Json.num 100),
                         (DATATOPS_PRIMARY_KEY, Json.str "alpha")]⟩]⟩) ∧
    (⟨"alpha", 100, [("v", Json.str "first")]⟩ : DItem) ∉
      ([⟨"alpha", 100, [("v", Json.str "second"),
                        (DATATOPS_TIMESTAMP_KEY, Json.num 100),
                        (DATATOPS_PRIMARY_KEY, Json.str "alpha")]⟩] : List DItem) := by
  refine ⟨rfl, ?_⟩
  intro h
  have h1 := List.mem_singleton.mp h
  have h2 := congrArg DItem.item h1
  have h3 := congrArg List.length h2
  simp at h3

/-- C6, amended: in the file backend a successful `store` appends the new
record at the end of the existing sequence, leaving every earlier record in
place (list order is the order of successful stores); in the table backend a
successful `store` preserves every item whose (partition, timestamp) key
differs from the injected one and query order follows the sort key — but a
store bearing the same injected timestamp as an existing record of the same
project replaces that record, so immutability holds only for distinct
injected timestamps. -/
theorem claim_C6_append_order :
    (∀ (fs : FS) (project : String) (uk ak : Option String) (pj : Json) (rs : List Json)
       (d : Json),
      fileIsAuthorizedToWrite fs project uk ak = some true →
      alookup fs (projectFile project) = some pj →
      pj.index "records" = some (.arr rs) →
      fileStore fs project uk ak d =
        (.stored, aset fs (projectFile project)
          (pj.setField "records" (.arr (rs ++ [d]))))) ∧
    (∀ (s : DynState) (project : String) (uk ak : Option String) (d : Dict) (t : Int),
      dynIsAuthorizedToWrite s project uk ak = true →
      (∀ x ∈ s.dataTable, ¬ (x.partition = project ∧ x.sortKey = t)) →
      (dynStore s project uk ak d t).1 = true ∧
      (∀ x ∈ s.dataTable, x ∈ (dynStore s project uk ak d t).2.dataTable) ∧
      (⟨project, t, dynStoreData d project t⟩ : DItem) ∈
        (dynStore s project uk ak d t).2.dataTable) ∧
    (∀ (s : DynState) (project : String) (uk ak : Option String) (d : Dict) (t : Int),
      tableSorted s.dataTable →
      tableSorted (dynStore s project uk ak d t).2.dataTable ∧
      List.Pairwise (fun a b : DItem => a.sortKey < b.sortKey)
        ((dynStore s project uk ak d t).2.dataTable.filter
          fun it => it.partition = project)) := by
  refine ⟨?_, ?_, ?_⟩
  · intro fs project uk ak pj rs d hauth hpj hrec
    simp [fileStore, hauth, hpj, hrec]
  · intro s project uk ak d t hauth hfresh
    have h1 : (dynStore s project uk ak d t).1 = true := by
      simp [dynStore, hauth]
    have h2 : (dynStore s project uk ak d t).2.dataTable =
        putItem s.dataTable ⟨project, t, dynStoreData d project t⟩ := by
      simp [dynStore, hauth]
    refine ⟨h1, ?_, ?_⟩
    · intro x hx
      rw [h2]
      refine mem_putItem_of_mem hx ?_
      intro hkey
      exact hfresh x hx ⟨hkey.1.symm, hkey.2.symm⟩
    · rw [h2]
      exact mem_putItem_self _ _
  · intro s project uk ak d t hsorted
    by_cases hauth : dynIsAuthorizedToWrite s project uk ak = true
    · have h2 : (dynStore s project uk ak d t).2.dataTable =
          putItem s.dataTable ⟨project, t, dynStoreData d project t⟩ := by
        simp [dynStore, hauth]
      rw [h2]
      have hs := putItem_pairwise (⟨project, t, dynStoreData d project t⟩ : DItem) hsorted
      exact ⟨hs, filter_sortKey_sorted _ project hs⟩
    · have hfalse : dynIsAuthorizedToWrite s project uk ak = false :=
        Bool.eq_false_iff.mpr hauth
      have h2 : (dynStore s project uk ak d t).2.dataTable = s.dataTable := by
        simp [dynStore, hfalse]
      rw [h2]
      exact ⟨hsorted, filter_sortKey_sorted _ project hsorted⟩

/-- Witness for C6 (amended): a concrete append on the file backend and a
concrete fresh-timestamp store on the table backend preserving the earlier
record. -/
theorem claim_C6_witness :
    fileStore
      [("alpha.json", Json.obj [("records", Json.arr [Json.str "r1"])]),
       ("projects.json", Json.obj [("projects", Json.arr [mkEntry "alpha" "u1" "a-1"])])]
      "alpha" (some "u1") none (Json.str "r2") =
      (StoreResult.stored,
       aset [("alpha.json", Json.obj [("records", Json.arr [Json.str "r1"])]),
             ("projects.json",
              Json.obj [("projects", Json.arr [mkEntry "alpha" "u1" "a-1"])])]
         (projectFile "alpha")
         ((Json.obj [("records", Json.arr [Json.str "r1"])]).setField "records"
           (Json.arr ([Json.str "r1"] ++ [Json.str "r2"])))) ∧
    (⟨"alpha", 5, [("x", Json.num 1)]⟩ : DItem) ∈
      (dynStore
        ⟨[("alpha", [("name", Json.str "alpha"), ("user_key", Json.str "u1"),
                     ("admin_key", Json.str "a-1")])],
         [⟨"alpha", 5, [("x", Json.num 1)]⟩]⟩
        "alpha" (some "u1") none [("y", Json.num 2)] 7).2.dataTable := by
  constructor
  · exact claim_C6_append_order.1
      [("alpha.json", Json.obj [("records", Json.arr [Json.str "r1"])]),
       ("projects.json", Json.obj [("projects", Json.arr [mkEntry "alpha" "u1" "a-1"])])]
      "alpha" (some "u1") none (Json.obj [("records", Json.arr [Json.str "r1"])])
      [Json.str "r1"] (Json.str "r2") rfl rfl rfl
  · refine (claim_C6_append_order.2.1
      ⟨[("alpha", [("name", Json.str "alpha"), ("user_key", Json.str "u1"),
                   ("admin_key", Json.str "a-1")])],
       [⟨"alpha", 5, [("x", Json.num 1)]⟩]⟩
      "alpha" (some "u1") none [("y", Json.num 2)] 7 rfl ?_).2.1
      ⟨"alpha", 5, [("x", Json.num 1)]⟩ (List.mem_singleton.mpr rfl)
    intro x hx
    have := List.mem_singleton.mp hx
    subst this
    simp

/-- C9: `DatatopsServer.store` writes the reserved timestamp key into the
very dict the caller passed (through its heap reference) before delegating,
and the table backend's `store` then overwrites that key with the integer
epoch and adds the partition-key field on the same object — so after an
authorized store through the table backend the caller's dict is observably
changed. -/
theorem claim_C9_store_mutates_caller_dict :
    (∀ (fs : FS) (h : Heap) (a : Nat) (project : String) (uk ak : Option String)
       (iso : String) (d : Dict),
      alookup h a = some d →
      ∃ r : StoreResult × FS × Heap,
        serverStoreFile fs h a project uk ak iso = some r ∧
        alookup r.2.2 a = some (aset d DATATOPS_TIMESTAMP_KEY (.str iso))) ∧
    (∀ (s : DynState) (h : Heap) (a : Nat) (project : String) (uk ak : Option String)
       (iso : String) (t : Int) (d : Dict),
      alookup h a = some d →
      dynIsAuthorizedToWrite s project uk ak = true →
      ∃ r : Bool × DynState × Heap,
        serverStoreDyn s h a project uk ak iso t = some r ∧
        r.1 = true ∧
        alookup r.2.2 a =
          some (dynStoreData (aset d DATATOPS_TIMESTAMP_KEY (.str iso)) project t) ∧
        alookup (dynStoreData (aset d DATATOPS_TIMESTAMP_KEY (.str iso)) project t)
          DATATOPS_TIMESTAMP_KEY = some (.num t) ∧
        alookup (dynStoreData (aset d DATATOPS_TIMESTAMP_KEY (.str iso)) project t)
          DATATOPS_PRIMARY_KEY = some (.str project)) ∧
    (∀ (d : Dict) (iso : String),
      alookup d DATATOPS_TIMESTAMP_KEY = none →
      aset d DATATOPS_TIMESTAMP_KEY (.str iso) ≠ d) := by
  have hkeys : DATATOPS_PRIMARY_KEY ≠ DATATOPS_TIMESTAMP_KEY := by decide
  refine ⟨?_, ?_, ?_⟩
  · intro fs h a project uk ak iso d hd
    refine ⟨(⟨(fileStore fs project uk ak
        (.obj (aset d DATATOPS_TIMESTAMP_KEY (.str iso)))).1,
        (fileStore fs project uk ak
          (.obj (aset d DATATOPS_TIMESTAMP_KEY (.str iso)))).2,
        aset h a (aset d DATATOPS_TIMESTAMP_KEY (.str iso))⟩), ?_, ?_⟩
    · rw [serverStoreFile, hd]
    · exact alookup_aset_self h a _
  · intro s h a project uk ak iso t d hd hauth
    have h1t : (dynStore s project uk ak (aset d DATATOPS_TIMESTAMP_KEY (.str iso)) t).1 =
        true := by
      simp [dynStore, hauth]
    refine ⟨⟨(dynStore s project uk ak (aset d DATATOPS_TIMESTAMP_KEY (.str iso)) t).1,
        (dynStore s project uk ak (aset d DATATOPS_TIMESTAMP_KEY (.str iso)) t).2,
        if (dynStore s project uk ak (aset d DATATOPS_TIMESTAMP_KEY (.str iso)) t).1 then
          aset (aset h a (aset d DATATOPS_TIMESTAMP_KEY (.str iso))) a
            (dynStoreData (aset d DATATOPS_TIMESTAMP_KEY (.str iso)) project t)
        else aset h a (aset d DATATOPS_TIMESTAMP_KEY (.str iso))⟩,
      ?_, h1t, ?_, ?_, ?_⟩
    · rw [serverStoreDyn, hd]
    · rw [if_pos h1t]
      exact alookup_aset_self _ a _
    · rw [dynStoreData, alookup_aset_ne _ _ hkeys]
      exact alookup_aset_self _ _ _
    · exact alookup_aset_self _ _ _
  · intro d iso hnone heq
    have h1 : alookup (aset d DATATOPS_TIMESTAMP_KEY (.str iso)) DATATOPS_TIMESTAMP_KEY =
        some (.str iso) := alookup_aset_self d _ _
    rw [heq, hnone] at h1
    cases h1

/-- Witness for C9: an authorized table-backend store through the
orchestrator, starting from a dict that lacks the timestamp key. -/
theorem claim_C9_witness :
    (∃ r : Bool × DynState × Heap,
      serverStoreDyn
        ⟨[("alpha", [("name", Json.str "alpha"), ("user_key", Json.str "u1"),
                     ("admin_key", Json.str "a-1")])], []⟩
        [(0, [("x", Json.num 1)])] 0 "alpha" (some "u1") none "2022-01-01T00:00:00" 100 =
        some r ∧
      r.1 = true ∧
      alookup r.2.2 0 =
        some (dynStoreData (aset [("x", Json.num 1)] DATATOPS_TIMESTAMP_KEY
          (.str "2022-01-01T00:00:00")) "alpha" 100) ∧
      alookup (dynStoreData (aset [("x", Json.num 1)] DATATOPS_TIMESTAMP_KEY
          (.str "2022-01-01T00:00:00")) "alpha" 100)
        DATATOPS_TIMESTAMP_KEY = some (.num 100) ∧
      alookup (dynStoreData (aset [("x", Json.num 1)] DATATOPS_TIMESTAMP_KEY
          (.str "2022-01-01T00:00:00")) "alpha" 100)
        DATATOPS_PRIMARY_KEY = some (.str "alpha")) ∧
    aset [("x", Json.num 1)] DATATOPS_TIMESTAMP_KEY (.str "2022-01-01T00:00:00") ≠
      [("x", Json.num 1)] :=
  ⟨claim_C9_store_mutates_caller_dict.2.1
      ⟨[("alpha", [("name", Json.str "alpha"), ("user_key", Json.str "u1"),
                   ("admin_key", Json.str "a-1")])], []⟩
      [(0, [("x", Json.num 1)])] 0 "alpha" (some "u1") none "2022-01-01T00:00:00" 100
      [("x", Json.num 1)] rfl rfl,
   claim_C9_store_mutates_caller_dict.2.2 [("x", Json.num 1)] "2022-01-01T00:00:00" rfl⟩

end Datatops
